import Mathlib

set_option autoImplicit false

namespace ProbeEngine

/-!
Shallow embedding of the probe-engine core analyzed here:

* the tor experiment's target collector (`experiment/tor/tor.go`:
  `measure`, `measureTargets`, `resultsCollector.measureSingleTarget`,
  `errString`, `setFailure`);
* the experiment lifecycle (`experiment/experiment.go`: `OpenReport`,
  `SubmitMeasurement`, `CloseReport`, `ReportID`);
* the resource cache (`resources/resources.go`:
  `Client.EnsureForSingleResource`).

Concurrency in `measureTargets` (two workers pulling from one channel,
a mutex around the map write, atomic adds for the counters) is modelled
by folding the per-target step over an arbitrary processing order: claims
quantify over every permutation of the input, which captures every
worker interleaving's effect on the final state.  External collaborators
(`oonitemplates`, `oonidatamodel`, `fetch.Client`, `session.Session`,
crypto/sha256, compress/gzip) are injected as function or outcome
parameters, exactly where the Go code itself injects them
(`rc.flexibleConnect`, `equal`, `gzipNewReader`, `ioutilReadAll`) or
calls out of the analyzed slice.
-/

/-- Go int64 arithmetic: `sync/atomic.AddInt64` adds with silent
two's-complement wrap-around, modelled as reduction into
`[-2^63, 2^63)`. -/
def i64 (z : Int) : Int := (z + 2 ^ 63) % 2 ^ 64 - 2 ^ 63

/-- model.TorTarget: one remote endpoint, protocol tag and optional
pluggable-transport parameters (`map[string][]string`). -/
structure TorTarget where
  address : String
  protocol : String
  params : List (String × List String)
deriving DecidableEq, Repr

/-- tor.go `keytarget`: the pair travelling on the work channel. -/
structure keytarget where
  key : String
  target : TorTarget
deriving DecidableEq, Repr

/-- Slice of `oonitemplates.Results` (external package) read by the
collector: the byte counters plus, implicitly, the raw telemetry handed
to the `oonidatamodel` constructors. -/
structure Results where
  sentBytes : Int
  receivedBytes : Int
deriving DecidableEq, Repr

/-- oonidatamodel.NetworkEventsList: external constructor, a pure
function of the raw results, modelled as a wrapper around them. -/
structure NetworkEventsList where
  tk : Results
deriving DecidableEq, Repr

/-- oonidatamodel.DNSQueriesList, modelled like `NetworkEventsList`. -/
structure DNSQueriesList where
  tk : Results
deriving DecidableEq, Repr

/-- oonidatamodel.RequestList, modelled like `NetworkEventsList`. -/
structure RequestList where
  tk : Results
deriving DecidableEq, Repr

/-- oonidatamodel.TCPConnectList, modelled like `NetworkEventsList`. -/
structure TCPConnectList where
  tk : Results
deriving DecidableEq, Repr

/-- oonidatamodel.TLSHandshakesList, modelled like
`NetworkEventsList`. -/
structure TLSHandshakesList where
  tk : Results
deriving DecidableEq, Repr

/-- tor.go `TargetResults`: the canonical per-target record. -/
structure TargetResults where
  agent : String
  failure : Option String
  networkEvents : NetworkEventsList
  queries : DNSQueriesList
  requests : RequestList
  targetAddress : String
  targetProtocol : String
  tcpConnect : TCPConnectList
  tlsHandshakes : TLSHandshakesList
deriving DecidableEq, Repr

/-- tor.go `setFailure`: a failure description pointer from an error,
`nil` when the error is `nil`.  Errors are modelled as
`Option String` (the error's message). -/
def setFailure : Option String → Option String
  | some descr => some descr
  | none => none

/-- tor.go `errString`: "success" for a `nil` error, the error's
message otherwise. -/
def errString : Option String → String
  | some m => m
  | none => "success"

/-- Go map assignment `m[k] = v`: replace the binding if the key is
present, append it otherwise. -/
def mapSet {β : Type} (k : String) (v : β) :
    List (String × β) → List (String × β)
  | [] => [(k, v)]
  | (k₁, v₁) :: rest =>
    if k₁ = k then (k, v) :: rest else (k₁, v₁) :: mapSet k v rest

/-- Go map read `m[k]`. -/
def mapGet {β : Type} (k : String) : List (String × β) → Option β
  | [] => none
  | (k₁, v₁) :: rest => if k₁ = k then some v₁ else mapGet k rest

/-- The record built inline in `measureSingleTarget` (tor.go lines
149-159) from the probe outcome. -/
def targetResultsFor (kt : keytarget) (tk : Results) (err : Option String) :
    TargetResults :=
  { agent := "redirect"
    failure := setFailure err
    networkEvents := NetworkEventsList.mk tk
    queries := DNSQueriesList.mk tk
    requests := RequestList.mk tk
    targetAddress := kt.target.address
    targetProtocol := kt.target.protocol
    tcpConnect := TCPConnectList.mk tk
    tlsHandshakes := TLSHandshakesList.mk tk }

/-- tor.go `resultsCollector` mutable state: the guarded result map,
the atomic counters, and the stream of `OnProgress` callbacks observed
in emission order. -/
structure resultsCollector where
  completed : Int
  receivedBytes : Int
  sentBytes : Int
  targetresults : List (String × TargetResults)
  progressEvents : List (ℚ × String)
deriving DecidableEq, Repr

/-- tor.go `newResultsCollector`: zeroed counters, empty map. -/
def newResultsCollector : resultsCollector :=
  { completed := 0
    receivedBytes := 0
    sentBytes := 0
    targetresults := []
    progressEvents := [] }

/-- Round to the nearest integer, ties to even — the IEEE-754 default
rounding direction applied to an exact value expressed as a
rational. -/
def roundNearestEven (x : ℚ) : ℤ :=
  if x - ⌊x⌋ < 1 / 2 then ⌊x⌋
  else if 1 / 2 < x - ⌊x⌋ then ⌊x⌋ + 1
  else if ⌊x⌋ % 2 = 0 then ⌊x⌋ else ⌊x⌋ + 1

/-- IEEE-754 binary64 rounding of a positive rational: scale into the
53-bit binade `[2^52, 2^53)` using the floor base-2 logarithm, round to
nearest even, and scale back.  Overflow and subnormals lie outside the
range this model is applied to (quotients k/N with 1 ≤ k ≤ N < 2^63
and integers below 2^63). -/
def rnePos (q : ℚ) : ℚ :=
  (roundNearestEven (q * 2 ^ (52 - Int.log 2 q)) : ℚ) * 2 ^ (Int.log 2 q - 52)

/-- IEEE-754 binary64 rounding of an exact rational value
(round-to-nearest, ties to even), extended to zero and negatives by
symmetry. -/
def roundFloat64 (q : ℚ) : ℚ :=
  if q = 0 then 0
  else if q < 0 then -rnePos (-q) else rnePos q

/-- Go conversion `float64(z)` of an integer: the nearest double. -/
def float64OfInt (z : Int) : ℚ := roundFloat64 (z : ℚ)

/-- Go float64 division: IEEE-754 division is the correctly rounded
exact quotient of its operands. -/
def float64Div (x y : ℚ) : ℚ := roundFloat64 (x / y)

/-- The fraction computed in `measureSingleTarget` (tor.go lines
164-167): guarded, 0.0 when `total` is not positive, otherwise the
float64 quotient `float64(sofar) / float64(total)`. -/
def progressPercentage (sofar total : Int) : ℚ :=
  if total > 0 then float64Div (float64OfInt sofar) (float64OfInt total) else 0

/-- tor.go `resultsCollector.measureSingleTarget`: run the injected
probe (`rc.flexibleConnect`), store the record under the target's key,
add the byte counters, bump `completed`, emit one progress event. -/
def measureSingleTarget
    (flexibleConnect : TorTarget → Results × Option String)
    (rc : resultsCollector) (kt : keytarget) (total : Int) :
    resultsCollector :=
  let tk := (flexibleConnect kt.target).1
  let err := (flexibleConnect kt.target).2
  let sofar := i64 (rc.completed + 1)
  { completed := sofar
    receivedBytes := i64 (rc.receivedBytes + tk.receivedBytes)
    sentBytes := i64 (rc.sentBytes + tk.sentBytes)
    targetresults := mapSet kt.key (targetResultsFor kt tk err) rc.targetresults
    progressEvents := rc.progressEvents ++
      [(progressPercentage sofar total,
        "tor: access " ++ kt.target.address ++ "/" ++ kt.target.protocol
          ++ ": " ++ errString err)] }

/-- Workers draining the shared channel: process the listed pairs in
order, threading the collector state. -/
def processTargets (flexibleConnect : TorTarget → Results × Option String)
    (total : Int) (rc : resultsCollector) (l : List keytarget) :
    resultsCollector :=
  l.foldl (fun rc kt => measureSingleTarget flexibleConnect rc kt total) rc

/-- tor.go `measureTargets` observed at the barrier: every enqueued
pair has been processed, in `order` (one arbitrary interleaving of the
two workers' pulls), with `total = len(targets)`. -/
def measureTargets (flexibleConnect : TorTarget → Results × Option String)
    (order : List keytarget) : resultsCollector :=
  processTargets flexibleConnect (order.length : Int) newResultsCollector order

/-- tor.go line 93: `const parallelism = 2`. -/
def parallelism : Nat := 2

/-- tor.go line 92: `workch := make(chan keytarget)` — an unbuffered
channel, so its buffer capacity is 0. -/
def workchCapacity : Nat := 0

/-- Go channel semantics: a send on a channel completes without
blocking exactly when a receiver is already waiting or the buffer has
room; otherwise the sender blocks. -/
def sendWouldBlock (capacity buffered : Nat) (receiverReady : Bool) : Bool :=
  !receiverReady && decide (capacity ≤ buffered)

/-- Contexts as a tree: a base context or a context derived from a
parent by `context.WithTimeout`. -/
inductive Ctx where
  | base (id : Nat) : Ctx
  | withTimeout (parent : Ctx) (seconds : Nat) : Ctx
deriving DecidableEq, Repr

/-- Which context each phase of `measurer.measure` (tor.go lines
59-74) receives; `fanoutCtx` is `none` when the target-list query
failed and the fan-out never ran. -/
structure MeasureCtxTrace where
  queryCtx : Ctx
  fanoutCtx : Option Ctx
deriving DecidableEq, Repr

/-- tor.go `measurer.measure`, control flow restricted to context
plumbing: derive `ctx` from `origCtx` with a 60-second timeout, query
the target list with `ctx`, and on success fan out with `origCtx`. -/
def measureCtxTrace (origCtx : Ctx) (querySucceeded : Bool) :
    MeasureCtxTrace :=
  let ctx := Ctx.withTimeout origCtx 60
  { queryCtx := ctx
    fanoutCtx := if querySucceeded then some origCtx else none }

/-- collector.Report: the remote report handle. -/
structure Report where
  id : String
deriving DecidableEq, Repr

/-- experiment.go `Experiment`, restricted to the lifecycle state the
claims are about: the nullable report handle. -/
structure Experiment where
  report : Option Report
deriving DecidableEq, Repr

/-- experiment.go `Experiment.ReportID`: the report ID or "". -/
def ReportID (e : Experiment) : String :=
  match e.report with
  | none => ""
  | some r => r.id

/-- experiment.go `Experiment.OpenReport`: no-op when a report is
already open; otherwise one remote call (`Session.OpenReport`, an
external collaborator whose outcome is injected) which sets the handle
on success.  Returns the new state, the error, and the number of
remote open calls performed. -/
def OpenReport (e : Experiment) (remoteOpen : Except String Report) :
    Experiment × Option String × Nat :=
  match e.report with
  | some _ => (e, none, 0)
  | none =>
    match remoteOpen with
    | .ok r => ({ e with report := some r }, none, 1)
    | .error msg => (e, some msg, 1)

/-- experiment.go `Experiment.SubmitMeasurement`: precondition check on
the handle, then one remote call whose outcome is injected.  Returns
the (unchanged) state, the error, and the number of remote submit
calls. -/
def SubmitMeasurement {μ : Type} (e : Experiment) (_measurement : μ)
    (remoteSubmit : Option String) : Experiment × Option String × Nat :=
  match e.report with
  | none => (e, some "Report is not open", 0)
  | some _ => (e, remoteSubmit, 1)

/-- experiment.go `Experiment.CloseReport`: no-op when no report is
open; otherwise one remote close call whose error is returned while the
local handle is cleared regardless. -/
def CloseReport (e : Experiment) (remoteClose : Option String) :
    Experiment × Option String × Nat :=
  match e.report with
  | none => (e, none, 0)
  | some _ => ({ e with report := none }, remoteClose, 1)

/-- resources.go `ResourceInfo`: a catalog entry. -/
structure ResourceInfo where
  urlPath : String
  gzSHA256 : String
  sha256 : String
deriving DecidableEq, Repr

/-- Outcome of one `EnsureForSingleResource` call: the returned error
(`none` is success), the content of `workDir/name` after the call
(`none` when the file is absent or unreadable), and whether a network
fetch was performed. -/
structure EnsureOutcome where
  result : Option String
  file : Option (List Nat)
  fetched : Bool
deriving DecidableEq, Repr

/-- The fall-through of `EnsureForSingleResource` after a cache miss
(resources.go lines 227-252): fetch-and-verify against `gzSHA256`
(external `fetch.Client`, outcome injected), decompress through the two
injected helpers, recheck the decompressed hash with the injected
comparator, and only then overwrite the file. -/
def ensureFetchPath {γ : Type}
    (sha256hex : List Nat → String)
    (fullpath : String)
    (localFile : Option (List Nat))
    (resource : ResourceInfo)
    (equal : String → String → Bool)
    (fetchAndVerify : Except String (List Nat))
    (gzipNewReader : List Nat → Except String γ)
    (ioutilReadAll : γ → Except String (List Nat)) : EnsureOutcome :=
  match fetchAndVerify with
  | .error e => { result := some e, file := localFile, fetched := true }
  | .ok data =>
    match gzipNewReader data with
    | .error e => { result := some e, file := localFile, fetched := true }
    | .ok gzreader =>
      match ioutilReadAll gzreader with
      | .error e => { result := some e, file := localFile, fetched := true }
      | .ok data₂ =>
        if equal (sha256hex data₂) resource.sha256 = false then
          { result := some ("resources: " ++ fullpath ++ " sha256 mismatch")
            file := localFile
            fetched := true }
        else
          { result := none, file := some data₂, fetched := true }

/-- resources.go `Client.EnsureForSingleResource`: read
`workDir/name` (content injected as `localFile`); on a readable file
whose hash the injected comparator accepts, succeed with no fetch;
otherwise take the fetch path.  `sha256hex` models
`fmt.Sprintf("%x", sha256.Sum256(data))` (external crypto primitive);
`filepath.Join` is modelled as slash concatenation. -/
def EnsureForSingleResource {γ : Type}
    (sha256hex : List Nat → String)
    (workDir name : String)
    (localFile : Option (List Nat))
    (resource : ResourceInfo)
    (equal : String → String → Bool)
    (fetchAndVerify : Except String (List Nat))
    (gzipNewReader : List Nat → Except String γ)
    (ioutilReadAll : γ → Except String (List Nat)) : EnsureOutcome :=
  let fullpath := workDir ++ "/" ++ name
  match localFile with
  | some data =>
    if equal (sha256hex data) resource.sha256 then
      { result := none, file := some data, fetched := false }
    else
      ensureFetchPath sha256hex fullpath localFile resource equal
        fetchAndVerify gzipNewReader ioutilReadAll
  | none =>
    ensureFetchPath sha256hex fullpath localFile resource equal
      fetchAndVerify gzipNewReader ioutilReadAll

/-!
Helper lemmas shared by the claim theorems.
-/

theorem i64_emod (x : Int) : i64 x % 2 ^ 64 = x % 2 ^ 64 := by
  unfold i64
  omega

theorem i64_congr {x y : Int} (h : x % 2 ^ 64 = y % 2 ^ 64) : i64 x = i64 y := by
  unfold i64
  omega

theorem i64_add_left (x y : Int) : i64 (i64 x + y) = i64 (x + y) := by
  apply i64_congr
  rw [Int.add_emod, i64_emod, ← Int.add_emod]

theorem i64_idem (x : Int) : i64 (i64 x) = i64 x := by
  apply i64_congr
  exact i64_emod x

theorem i64_eq_self {z : Int} (h₁ : -(2 ^ 63) ≤ z) (h₂ : z < 2 ^ 63) :
    i64 z = z := by
  unfold i64
  omega

theorem roundNearestEven_floor_le (x : ℚ) : ⌊x⌋ ≤ roundNearestEven x := by
  unfold roundNearestEven
  split
  · exact le_refl _
  · split
    · omega
    · split
      · exact le_refl _
      · omega

theorem rnePos_pos {q : ℚ} (hq : 0 < q) : 0 < rnePos q := by
  have h2 : (0 : ℚ) < 2 := by norm_num
  have he : (2 : ℚ) ^ Int.log 2 q ≤ q := by
    simpa using Int.zpow_log_le_self (b := 2) (r := q) (by norm_num) hq
  have hsc : (1 : ℚ) ≤ q * 2 ^ (52 - Int.log 2 q) := by
    have hp : (0 : ℚ) < (2 : ℚ) ^ (52 - Int.log 2 q) := zpow_pos h2 _
    have hmul : (2 : ℚ) ^ Int.log 2 q * 2 ^ (52 - Int.log 2 q) ≤
        q * 2 ^ (52 - Int.log 2 q) :=
      mul_le_mul_of_nonneg_right he hp.le
    have hexp : Int.log 2 q + (52 - Int.log 2 q) = 52 := by ring
    have heq : (2 : ℚ) ^ Int.log 2 q * 2 ^ (52 - Int.log 2 q) =
        2 ^ (52 : ℤ) := by
      rw [← zpow_add₀ (by norm_num : (2 : ℚ) ≠ 0), hexp]
    calc (1 : ℚ) ≤ 2 ^ (52 : ℤ) := by norm_num
    _ = (2 : ℚ) ^ Int.log 2 q * 2 ^ (52 - Int.log 2 q) := heq.symm
    _ ≤ q * 2 ^ (52 - Int.log 2 q) := hmul
  have hfl : (1 : ℤ) ≤ ⌊q * 2 ^ (52 - Int.log 2 q)⌋ := by
    rw [Int.le_floor]
    exact_mod_cast hsc
  have hn : (1 : ℤ) ≤ roundNearestEven (q * 2 ^ (52 - Int.log 2 q)) :=
    le_trans hfl (roundNearestEven_floor_le _)
  have hnq : (0 : ℚ) < (roundNearestEven (q * 2 ^ (52 - Int.log 2 q)) : ℚ) := by
    exact_mod_cast lt_of_lt_of_le zero_lt_one hn
  exact mul_pos hnq (zpow_pos h2 _)

theorem roundFloat64_one : roundFloat64 (1 : ℚ) = 1 := by
  have hlog : Int.log 2 (1 : ℚ) = 0 := Int.log_one_right 2
  have hx : (1 : ℚ) * 2 ^ (52 - Int.log 2 (1 : ℚ)) = ((2 ^ 52 : ℤ) : ℚ) := by
    rw [hlog]
    push_cast
    norm_num
  have hrne : roundNearestEven ((1 : ℚ) * 2 ^ (52 - Int.log 2 (1 : ℚ))) =
      2 ^ 52 := by
    rw [hx]
    unfold roundNearestEven
    rw [Int.floor_intCast]
    norm_num
  unfold roundFloat64 rnePos
  rw [if_neg (by norm_num), if_neg (by norm_num), hrne, hlog]
  push_cast
  rw [zpow_neg, mul_inv_eq_one₀ (by positivity)]
  rw [show ((52 : ℤ)) = ((52 : ℕ) : ℤ) from rfl, zpow_natCast]
  norm_num

theorem roundFloat64_pos {q : ℚ} (hq : 0 < q) : 0 < roundFloat64 q := by
  unfold roundFloat64
  rw [if_neg (ne_of_gt hq), if_neg (not_lt.mpr hq.le)]
  exact rnePos_pos hq

theorem float64Div_self {x : ℚ} (hx : x ≠ 0) : float64Div x x = 1 := by
  unfold float64Div
  rw [div_self hx]
  exact roundFloat64_one

theorem float64OfInt_pos {z : Int} (hz : 0 < z) : 0 < float64OfInt z :=
  roundFloat64_pos (by exact_mod_cast hz)

theorem processTargets_cons
    (flexibleConnect : TorTarget → Results × Option String) (total : Int)
    (rc : resultsCollector) (kt : keytarget) (l : List keytarget) :
    processTargets flexibleConnect total rc (kt :: l) =
      processTargets flexibleConnect total
        (measureSingleTarget flexibleConnect rc kt total) l := rfl

theorem processTargets_sentBytes
    (flexibleConnect : TorTarget → Results × Option String) (total : Int) :
    ∀ (l : List keytarget) (rc : resultsCollector),
      i64 rc.sentBytes = rc.sentBytes →
      (processTargets flexibleConnect total rc l).sentBytes =
        i64 (rc.sentBytes +
          (l.map fun kt => (flexibleConnect kt.target).1.sentBytes).sum)
  | [], rc, h => by
    simpa [processTargets] using h.symm
  | kt :: l, rc, h => by
    rw [processTargets_cons,
      processTargets_sentBytes flexibleConnect total l _ (by
        simp [measureSingleTarget, i64_idem])]
    simp only [measureSingleTarget, List.map_cons, List.sum_cons]
    rw [i64_add_left]
    ring_nf

theorem processTargets_receivedBytes
    (flexibleConnect : TorTarget → Results × Option String) (total : Int) :
    ∀ (l : List keytarget) (rc : resultsCollector),
      i64 rc.receivedBytes = rc.receivedBytes →
      (processTargets flexibleConnect total rc l).receivedBytes =
        i64 (rc.receivedBytes +
          (l.map fun kt => (flexibleConnect kt.target).1.receivedBytes).sum)
  | [], rc, h => by
    simpa [processTargets] using h.symm
  | kt :: l, rc, h => by
    rw [processTargets_cons,
      processTargets_receivedBytes flexibleConnect total l _ (by
        simp [measureSingleTarget, i64_idem])]
    simp only [measureSingleTarget, List.map_cons, List.sum_cons]
    rw [i64_add_left]
    ring_nf

theorem processTargets_completed
    (flexibleConnect : TorTarget → Results × Option String) (total : Int) :
    ∀ (l : List keytarget) (rc : resultsCollector),
      0 ≤ rc.completed → rc.completed + l.length < 2 ^ 63 →
      (processTargets flexibleConnect total rc l).completed =
        rc.completed + l.length
  | [], rc, _, _ => by
    simp [processTargets]
  | kt :: l, rc, h₀, h₁ => by
    have hlen : (rc.completed + 1) + (l.length : Int) < 2 ^ 63 := by
      simp only [List.length_cons] at h₁
      push_cast at h₁ ⊢
      omega
    have hstep : i64 (rc.completed + 1) = rc.completed + 1 :=
      i64_eq_self (by omega) (by omega)
    rw [processTargets_cons,
      processTargets_completed flexibleConnect total l _
        (by simp [measureSingleTarget, hstep]; omega)
        (by simp [measureSingleTarget, hstep]; omega)]
    simp only [measureSingleTarget, hstep, List.length_cons]
    push_cast
    ring_nf

/-- Message attached to one progress event (tor.go lines 168-171). -/
def progressMessage (flexibleConnect : TorTarget → Results × Option String)
    (kt : keytarget) : String :=
  "tor: access " ++ kt.target.address ++ "/" ++ kt.target.protocol ++ ": " ++
    errString (flexibleConnect kt.target).2

/-- Progress events emitted while draining `l`, starting from completion
counter `c`. -/
def progressEventsFrom (flexibleConnect : TorTarget → Results × Option String)
    (total : Int) : Int → List keytarget → List (ℚ × String)
  | _, [] => []
  | c, kt :: l =>
    (progressPercentage (i64 (c + 1)) total,
      progressMessage flexibleConnect kt) ::
      progressEventsFrom flexibleConnect total (i64 (c + 1)) l

theorem processTargets_progress
    (flexibleConnect : TorTarget → Results × Option String) (total : Int) :
    ∀ (l : List keytarget) (rc : resultsCollector),
      (processTargets flexibleConnect total rc l).progressEvents =
        rc.progressEvents ++
          progressEventsFrom flexibleConnect total rc.completed l
  | [], rc => by
    simp [processTargets, progressEventsFrom]
  | kt :: l, rc => by
    rw [processTargets_cons,
      processTargets_progress flexibleConnect total l]
    simp [measureSingleTarget, progressEventsFrom, progressMessage]

theorem progressEventsFrom_getElem
    (flexibleConnect : TorTarget → Results × Option String) (total : Int) :
    ∀ (l : List keytarget) (c : Int) (i : Nat) (hi : i < l.length),
      0 ≤ c → c + l.length < 2 ^ 63 →
      (progressEventsFrom flexibleConnect total c l)[i]? =
        some (progressPercentage (c + i + 1) total,
          progressMessage flexibleConnect (l.get ⟨i, hi⟩))
  | kt :: l, c, 0, _, h₀, h₁ => by
    have hstep : i64 (c + 1) = c + 1 := by
      refine i64_eq_self (by omega) ?_
      simp only [List.length_cons] at h₁
      push_cast at h₁
      omega
    simp [progressEventsFrom, hstep]
  | kt :: l, c, i + 1, hi, h₀, h₁ => by
    have hstep : i64 (c + 1) = c + 1 := by
      refine i64_eq_self (by omega) ?_
      simp only [List.length_cons] at h₁
      push_cast at h₁
      omega
    have hi' : i < l.length := by
      simpa [Nat.succ_lt_succ_iff] using hi
    simp only [progressEventsFrom, List.getElem?_cons_succ]
    rw [progressEventsFrom_getElem flexibleConnect total l (i64 (c + 1)) i hi'
        (by rw [hstep]; omega) (by
          rw [hstep]
          simp only [List.length_cons] at h₁
          push_cast at h₁ ⊢
          omega)]
    rw [hstep]
    congr 2
    push_cast
    ring_nf

theorem mapSet_eq_append {β : Type} (k : String) (v : β) :
    ∀ (m : List (String × β)), (∀ p ∈ m, p.1 ≠ k) →
      mapSet k v m = m ++ [(k, v)]
  | [], _ => rfl
  | (k₁, v₁) :: rest, h => by
    have hk : k₁ ≠ k := h (k₁, v₁) (List.mem_cons_self _ _)
    simp only [mapSet, if_neg hk, List.cons_append, List.cons.injEq, true_and]
    exact mapSet_eq_append k v rest fun p hp => h p (List.mem_cons_of_mem _ hp)

theorem processTargets_targetresults
    (flexibleConnect : TorTarget → Results × Option String) (total : Int) :
    ∀ (l : List keytarget) (rc : resultsCollector),
      (processTargets flexibleConnect total rc l).targetresults =
        l.foldl (fun m kt =>
          mapSet kt.key
            (targetResultsFor kt (flexibleConnect kt.target).1
              (flexibleConnect kt.target).2) m) rc.targetresults
  | [], _ => rfl
  | kt :: l, rc => by
    rw [processTargets_cons,
      processTargets_targetresults flexibleConnect total l]
    rfl

theorem foldl_mapSet_fresh (f : keytarget → TargetResults) :
    ∀ (l : List keytarget) (m : List (String × TargetResults)),
      (l.map keytarget.key).Nodup →
      (∀ p ∈ m, p.1 ∉ l.map keytarget.key) →
      l.foldl (fun m kt => mapSet kt.key (f kt) m) m =
        m ++ l.map fun kt => (kt.key, f kt)
  | [], m, _, _ => by simp
  | kt :: l, m, hnd, hdisj => by
    simp only [List.map_cons, List.nodup_cons] at hnd
    have hm : ∀ p ∈ m, p.1 ≠ kt.key := by
      intro p hp hk
      exact hdisj p hp (by simp [hk])
    have hdisj₁ : ∀ p ∈ m ++ [(kt.key, f kt)], p.1 ∉ l.map keytarget.key := by
      intro p hp
      rcases List.mem_append.1 hp with hp | hp
      · intro hM
        exact hdisj p hp (by simp [hM])
      · have hpk : p = (kt.key, f kt) := by simpa using hp
        subst hpk
        simpa using hnd.1
    simp only [List.foldl_cons]
    rw [mapSet_eq_append kt.key (f kt) m hm,
      foldl_mapSet_fresh f l (m ++ [(kt.key, f kt)]) hnd.2 hdisj₁]
    simp

theorem mapGet_map_of_mem (f : keytarget → TargetResults) :
    ∀ (l : List keytarget) (kt : keytarget),
      (l.map keytarget.key).Nodup → kt ∈ l →
      mapGet kt.key (l.map fun kt₁ => (kt₁.key, f kt₁)) = some (f kt)
  | [], kt, _, h => absurd h (List.not_mem_nil kt)
  | kt₀ :: l, kt, hnd, hmem => by
    simp only [List.map_cons, List.nodup_cons] at hnd
    simp only [List.map_cons, mapGet]
    by_cases hk : kt₀.key = kt.key
    · rw [if_pos hk]
      rcases List.mem_cons.1 hmem with rfl | h
      · rfl
      · exfalso
        apply hnd.1
        rw [hk]
        exact List.mem_map_of_mem keytarget.key h
    · rw [if_neg hk]
      have hmem₁ : kt ∈ l := by
        rcases List.mem_cons.1 hmem with rfl | h
        · exact absurd rfl hk
        · exact h
      exact mapGet_map_of_mem f l kt hnd.2 hmem₁

/-- Sample target used by the concrete witnesses. -/
def ktA : keytarget :=
  { key := "k1"
    target := { address := "1.2.3.4", protocol := "or_port", params := [] } }

/-- Second sample target used by the concrete witnesses. -/
def ktB : keytarget :=
  { key := "k2"
    target := { address := "5.6.7.8", protocol := "dir_port", params := [] } }

/-- Stub probe used by the concrete witnesses: succeeds on `or_port`,
fails otherwise. -/
def probeStub : TorTarget → Results × Option String := fun t =>
  if t.protocol = "or_port" then
    ({ sentBytes := 7, receivedBytes := 11 }, none)
  else
    ({ sentBytes := 3, receivedBytes := 5 }, some "connection_refused")

/-- Claim C1: for every input target mapping of size N, the collector
returns a result mapping whose key set equals the input key set exactly,
and every key maps to a completed record whose failure field is set
when that probe failed — no target is dropped, regardless of how many
probes fail.  The processing order quantifies over every permutation of
the input (every worker interleaving). -/
theorem tor_collect_preserves_target_keys
    (targets order : List keytarget)
    (flexibleConnect : TorTarget → Results × Option String)
    (hperm : order.Perm targets)
    (hkeys : (targets.map keytarget.key).Nodup) :
    ((measureTargets flexibleConnect order).targetresults.map Prod.fst).Perm
        (targets.map keytarget.key) ∧
    (∀ kt ∈ targets,
      mapGet kt.key (measureTargets flexibleConnect order).targetresults =
        some (targetResultsFor kt (flexibleConnect kt.target).1
          (flexibleConnect kt.target).2)) ∧
    (∀ kt ∈ targets, ∀ m, (flexibleConnect kt.target).2 = some m →
      (mapGet kt.key
          (measureTargets flexibleConnect order).targetresults).map
        TargetResults.failure = some (some m)) := by
  have hordkeys : (order.map keytarget.key).Nodup :=
    (hperm.map keytarget.key).nodup_iff.2 hkeys
  have hres : (measureTargets flexibleConnect order).targetresults =
      order.map fun kt => (kt.key, targetResultsFor kt
        (flexibleConnect kt.target).1 (flexibleConnect kt.target).2) := by
    rw [measureTargets, processTargets_targetresults]
    simpa using foldl_mapSet_fresh _ order [] hordkeys (by simp)
  refine ⟨?_, ?_, ?_⟩
  · rw [hres, List.map_map]
    simpa [Function.comp] using hperm.map keytarget.key
  · intro kt hkt
    rw [hres]
    exact mapGet_map_of_mem _ order kt hordkeys (hperm.mem_iff.mpr hkt)
  · intro kt hkt m hm
    rw [hres, mapGet_map_of_mem _ order kt hordkeys (hperm.mem_iff.mpr hkt)]
    simp [targetResultsFor, setFailure, hm]

/-- Witness for C1 at a concrete two-target batch processed in swapped
order. -/
theorem tor_collect_preserves_target_keys_witness :
    ([ktB, ktA] : List keytarget).Perm [ktA, ktB] ∧
    (([ktA, ktB] : List keytarget).map keytarget.key).Nodup ∧
    (((measureTargets probeStub [ktB, ktA]).targetresults.map Prod.fst).Perm
        (([ktA, ktB] : List keytarget).map keytarget.key) ∧
      (∀ kt ∈ ([ktA, ktB] : List keytarget),
        mapGet kt.key (measureTargets probeStub [ktB, ktA]).targetresults =
          some (targetResultsFor kt (probeStub kt.target).1
            (probeStub kt.target).2)) ∧
      (∀ kt ∈ ([ktA, ktB] : List keytarget), ∀ m,
        (probeStub kt.target).2 = some m →
        (mapGet kt.key
            (measureTargets probeStub [ktB, ktA]).targetresults).map
          TargetResults.failure = some (some m))) :=
  ⟨by decide, by decide,
    tor_collect_preserves_target_keys [ktA, ktB] [ktB, ktA] probeStub
      (by decide) (by decide)⟩

/-- Claim C2: the byte totals accumulated by the collector equal the
exact sum over all per-target results of their SentBytes and
ReceivedBytes, for every processing order (worker interleaving), as
long as the exact sums fit in int64 (the counters are int64 adds). -/
theorem tor_collect_byte_totals_exact
    (targets order : List keytarget)
    (flexibleConnect : TorTarget → Results × Option String)
    (hperm : order.Perm targets)
    (hs₁ : -(2 ^ 63) ≤
      (targets.map fun kt => (flexibleConnect kt.target).1.sentBytes).sum)
    (hs₂ :
      (targets.map fun kt => (flexibleConnect kt.target).1.sentBytes).sum
        < 2 ^ 63)
    (hr₁ : -(2 ^ 63) ≤
      (targets.map fun kt => (flexibleConnect kt.target).1.receivedBytes).sum)
    (hr₂ :
      (targets.map fun kt => (flexibleConnect kt.target).1.receivedBytes).sum
        < 2 ^ 63) :
    (measureTargets flexibleConnect order).sentBytes =
      (targets.map fun kt => (flexibleConnect kt.target).1.sentBytes).sum ∧
    (measureTargets flexibleConnect order).receivedBytes =
      (targets.map fun kt => (flexibleConnect kt.target).1.receivedBytes).sum
    := by
  have hzero : i64 (0 : Int) = 0 := by decide
  constructor
  · rw [measureTargets,
      processTargets_sentBytes flexibleConnect _ order newResultsCollector
        (by simpa [newResultsCollector] using hzero)]
    rw [show newResultsCollector.sentBytes = 0 from rfl, zero_add,
      (hperm.map fun kt => (flexibleConnect kt.target).1.sentBytes).sum_eq]
    exact i64_eq_self hs₁ hs₂
  · rw [measureTargets,
      processTargets_receivedBytes flexibleConnect _ order newResultsCollector
        (by simpa [newResultsCollector] using hzero)]
    rw [show newResultsCollector.receivedBytes = 0 from rfl, zero_add,
      (hperm.map fun kt => (flexibleConnect kt.target).1.receivedBytes).sum_eq]
    exact i64_eq_self hr₁ hr₂

/-- Witness for C2 at a concrete two-target batch processed in swapped
order: totals are 7 + 3 sent and 11 + 5 received. -/
theorem tor_collect_byte_totals_exact_witness :
    ([ktB, ktA] : List keytarget).Perm [ktA, ktB] ∧
    (measureTargets probeStub [ktB, ktA]).sentBytes =
      (([ktA, ktB] : List keytarget).map
        fun kt => (probeStub kt.target).1.sentBytes).sum ∧
    (measureTargets probeStub [ktB, ktA]).receivedBytes =
      (([ktA, ktB] : List keytarget).map
        fun kt => (probeStub kt.target).1.receivedBytes).sum :=
  ⟨by decide,
    (tor_collect_byte_totals_exact [ktA, ktB] [ktB, ktA] probeStub
      (by decide) (by decide) (by decide) (by decide) (by decide)).1,
    (tor_collect_byte_totals_exact [ktA, ktB] [ktB, ktA] probeStub
      (by decide) (by decide) (by decide) (by decide) (by decide)).2⟩

theorem ctx_withTimeout_ne : ∀ (c : Ctx) (s : Nat), Ctx.withTimeout c s ≠ c := by
  intro c
  induction c with
  | base id =>
    intro s h
    exact Ctx.noConfusion h
  | withTimeout p s₁ ih =>
    intro s h
    injection h with h₁ h₂
    exact ih s₁ h₁

/-- Claim C3 fails on the code: `measure` derives the 60-second
deadline context from the caller's context and uses it for target-list
retrieval only, then passes the caller's original context — not the
deadline-bound one — to the target fan-out (tor.go lines 65-71). -/
theorem tor_measure_shared_ctx_counterexample :
    (measureCtxTrace (Ctx.base 0) true).fanoutCtx ≠
      some (measureCtxTrace (Ctx.base 0) true).queryCtx := by decide

/-- Claim C3 amended: the 60-second deadline-bound context derived from
the caller's context bounds only target-list retrieval; the fan-out
receives the caller's original context (the parent of the deadline
context), which is never the deadline-bound context itself, so the
caller's cancellation propagates to workers but the 60-second deadline
does not bound the fan-out. -/
theorem tor_measure_ctx_split (origCtx : Ctx) :
    (measureCtxTrace origCtx true).queryCtx = Ctx.withTimeout origCtx 60 ∧
    (measureCtxTrace origCtx true).fanoutCtx = some origCtx ∧
    (measureCtxTrace origCtx true).fanoutCtx ≠
      some (measureCtxTrace origCtx true).queryCtx ∧
    (measureCtxTrace origCtx false).fanoutCtx = none := by
  refine ⟨rfl, rfl, ?_, rfl⟩
  intro h
  simp only [measureCtxTrace, if_pos, Option.some_inj] at h
  exact ctx_withTimeout_ne origCtx 60 h.symm

/-- Claim C4: the report handle transitions only closed → open →
closed.  Opening with a report already open is a no-op performing no
remote call and preserving the handle (hence the report ID); closing
with no open report performs zero remote calls and returns no error;
closing an open report clears the local handle regardless of the remote
close's outcome. -/
theorem experiment_report_lifecycle :
    (∀ (e : Experiment) (r : Report) (remoteOpen : Except String Report),
      e.report = some r → OpenReport e remoteOpen = (e, none, 0)) ∧
    (∀ (e : Experiment) (remoteClose : Option String),
      e.report = none → CloseReport e remoteClose = (e, none, 0)) ∧
    (∀ (e : Experiment) (r : Report) (remoteClose : Option String),
      e.report = some r → (CloseReport e remoteClose).1.report = none) := by
  refine ⟨?_, ?_, ?_⟩
  · intro e r remoteOpen h
    simp [OpenReport, h]
  · intro e remoteClose h
    simp [CloseReport, h]
  · intro e r remoteClose h
    simp [CloseReport, h]

/-- Witness for C4 at concrete handles: re-open is a no-op with zero
calls, close on a closed runner is a no-op with zero calls, and close
on an open runner clears the handle even when the remote close
errors. -/
theorem experiment_report_lifecycle_witness :
    (Experiment.mk (some (Report.mk "rid"))).report = some (Report.mk "rid") ∧
    OpenReport (Experiment.mk (some (Report.mk "rid")))
        (Except.ok (Report.mk "other")) =
      (Experiment.mk (some (Report.mk "rid")), none, 0) ∧
    (Experiment.mk none).report = none ∧
    CloseReport (Experiment.mk none) (some "boom") =
      (Experiment.mk none, none, 0) ∧
    (CloseReport (Experiment.mk (some (Report.mk "rid"))) (some "boom")).1.report
      = none :=
  ⟨rfl,
    experiment_report_lifecycle.1 (Experiment.mk (some (Report.mk "rid")))
      (Report.mk "rid") (Except.ok (Report.mk "other")) rfl,
    rfl,
    experiment_report_lifecycle.2.1 (Experiment.mk none) (some "boom") rfl,
    experiment_report_lifecycle.2.2 (Experiment.mk (some (Report.mk "rid")))
      (Report.mk "rid") (some "boom") rfl⟩

/-- Claim C5: SubmitMeasurement with no open report returns the
lifecycle-precondition error "Report is not open", performs no remote
call, and leaves the runner state unchanged. -/
theorem experiment_submit_requires_open_report
    (μ : Type) (e : Experiment) (m : μ) (remoteSubmit : Option String)
    (h : e.report = none) :
    SubmitMeasurement e m remoteSubmit =
      (e, some "Report is not open", 0) := by
  simp [SubmitMeasurement, h]

/-- Witness for C5 at a concrete closed runner. -/
theorem experiment_submit_requires_open_report_witness :
    (Experiment.mk none).report = none ∧
    SubmitMeasurement (Experiment.mk none) (42 : Nat) none =
      (Experiment.mk none, some "Report is not open", 0) :=
  ⟨rfl,
    experiment_submit_requires_open_report Nat (Experiment.mk none) 42 none rfl⟩

/-- Claim C6: when the local file exists and the injected comparator
judges its content hash equal to the entry's declared decompressed
hash, `EnsureForSingleResource` succeeds without performing any network
fetch, leaving the file untouched. -/
theorem ensure_cache_hit_no_fetch (γ : Type)
    (sha256hex : List Nat → String) (workDir name : String)
    (data : List Nat) (resource : ResourceInfo)
    (equal : String → String → Bool)
    (fetchAndVerify : Except String (List Nat))
    (gzipNewReader : List Nat → Except String γ)
    (ioutilReadAll : γ → Except String (List Nat))
    (h : equal (sha256hex data) resource.sha256 = true) :
    EnsureForSingleResource sha256hex workDir name (some data) resource equal
        fetchAndVerify gzipNewReader ioutilReadAll =
      { result := none, file := some data, fetched := false } := by
  simp [EnsureForSingleResource, h]

/-- Stub content hash used by the concrete witnesses: the decimal
length of the content. -/
def sha256hexStub : List Nat → String := fun data => toString data.length

/-- Sample catalog entry used by the concrete witnesses. -/
def resourceStub : ResourceInfo :=
  { urlPath := "/releases/ca-bundle.pem.gz"
    gzSHA256 := "gzhash"
    sha256 := "3" }

/-- String equality as the injected comparator of the witnesses. -/
def equalStub : String → String → Bool := fun left right => left == right

/-- Witness for C6: a three-byte cached file whose stub hash "3"
matches the catalog entry, with a fetch outcome that would fail if it
were consulted. -/
theorem ensure_cache_hit_no_fetch_witness :
    equalStub (sha256hexStub [10, 20, 30]) resourceStub.sha256 = true ∧
    EnsureForSingleResource sha256hexStub "wd" "ca-bundle.pem"
        (some [10, 20, 30]) resourceStub equalStub
        (Except.error "network down") (fun d => Except.ok d)
        (fun d => Except.ok d) =
      { result := none, file := some [10, 20, 30], fetched := false } :=
  ⟨by decide,
    ensure_cache_hit_no_fetch (List Nat) sha256hexStub "wd" "ca-bundle.pem"
      [10, 20, 30] resourceStub equalStub (Except.error "network down")
      (fun d => Except.ok d) (fun d => Except.ok d) (by decide)⟩

theorem ensureFetchPath_spec (γ : Type)
    (sha256hex : List Nat → String) (fullpath : String)
    (localFile : Option (List Nat)) (resource : ResourceInfo)
    (equal : String → String → Bool)
    (fetchAndVerify : Except String (List Nat))
    (gzipNewReader : List Nat → Except String γ)
    (ioutilReadAll : γ → Except String (List Nat)) :
    (∀ e, (ensureFetchPath sha256hex fullpath localFile resource equal
        fetchAndVerify gzipNewReader ioutilReadAll).result = some e →
      (ensureFetchPath sha256hex fullpath localFile resource equal
        fetchAndVerify gzipNewReader ioutilReadAll).file = localFile) ∧
    ((ensureFetchPath sha256hex fullpath localFile resource equal
        fetchAndVerify gzipNewReader ioutilReadAll).result = none →
      ∃ d, (ensureFetchPath sha256hex fullpath localFile resource equal
          fetchAndVerify gzipNewReader ioutilReadAll).file = some d ∧
        equal (sha256hex d) resource.sha256 = true) := by
  cases fetchAndVerify with
  | error e => simp [ensureFetchPath]
  | ok data =>
    cases hgz : gzipNewReader data with
    | error e => simp [ensureFetchPath, hgz]
    | ok gzreader =>
      cases hread : ioutilReadAll gzreader with
      | error e => simp [ensureFetchPath, hgz, hread]
      | ok data₂ =>
        cases heq : equal (sha256hex data₂) resource.sha256 with
        | false => simp [ensureFetchPath, hgz, hread, heq]
        | true =>
          refine ⟨?_, ?_⟩
          · intro e he
            exfalso
            simp [ensureFetchPath, hgz, hread, heq] at he
          · intro _
            exact ⟨data₂, by simp [ensureFetchPath, hgz, hread, heq], heq⟩

/-- Claim C7: `EnsureForSingleResource` writes the local file only
after the decompressed content's hash has been verified: on any error
(fetch failure, gzip reader construction failure, read failure, or
post-decompress hash mismatch) the file on disk is unchanged, and on
success the file on disk has a hash the injected comparator accepts
against the declared decompressed hash. -/
theorem ensure_no_unverified_write (γ : Type)
    (sha256hex : List Nat → String) (workDir name : String)
    (localFile : Option (List Nat)) (resource : ResourceInfo)
    (equal : String → String → Bool)
    (fetchAndVerify : Except String (List Nat))
    (gzipNewReader : List Nat → Except String γ)
    (ioutilReadAll : γ → Except String (List Nat))
    (out : EnsureOutcome)
    (hout : out = EnsureForSingleResource sha256hex workDir name localFile
      resource equal fetchAndVerify gzipNewReader ioutilReadAll) :
    (∀ e, out.result = some e → out.file = localFile) ∧
    (out.result = none →
      ∃ d, out.file = some d ∧ equal (sha256hex d) resource.sha256 = true) := by
  subst hout
  cases localFile with
  | none =>
    exact ensureFetchPath_spec γ sha256hex (workDir ++ "/" ++ name) none
      resource equal fetchAndVerify gzipNewReader ioutilReadAll
  | some data =>
    cases hhit : equal (sha256hex data) resource.sha256 with
    | false =>
      have hfall : EnsureForSingleResource sha256hex workDir name (some data)
          resource equal fetchAndVerify gzipNewReader ioutilReadAll =
          ensureFetchPath sha256hex (workDir ++ "/" ++ name) (some data)
            resource equal fetchAndVerify gzipNewReader ioutilReadAll := by
        simp [EnsureForSingleResource, hhit]
      rw [hfall]
      exact ensureFetchPath_spec γ sha256hex (workDir ++ "/" ++ name)
        (some data) resource equal fetchAndVerify gzipNewReader ioutilReadAll
    | true =>
      have hres : EnsureForSingleResource sha256hex workDir name (some data)
          resource equal fetchAndVerify gzipNewReader ioutilReadAll =
          { result := none, file := some data, fetched := false } := by
        simp [EnsureForSingleResource, hhit]
      rw [hres]
      exact ⟨fun e he => by simp at he, fun _ => ⟨data, rfl, hhit⟩⟩

/-- Witness for C7: injecting a failing gzip reader (as the fault
injection test does) yields an error and leaves the absent file
absent. -/
theorem ensure_no_unverified_write_witness :
    EnsureForSingleResource sha256hexStub "wd" "ca-bundle.pem" none
        resourceStub equalStub (Except.ok [9])
        (fun _ => (Except.error "mocked error" : Except String (List Nat)))
        (fun d => Except.ok d) =
      EnsureForSingleResource sha256hexStub "wd" "ca-bundle.pem" none
        resourceStub equalStub (Except.ok [9])
        (fun _ => (Except.error "mocked error" : Except String (List Nat)))
        (fun d => Except.ok d) ∧
    ((∀ e, (EnsureForSingleResource sha256hexStub "wd" "ca-bundle.pem" none
        resourceStub equalStub (Except.ok [9])
        (fun _ => (Except.error "mocked error" : Except String (List Nat)))
        (fun d => Except.ok d)).result = some e →
      (EnsureForSingleResource sha256hexStub "wd" "ca-bundle.pem" none
        resourceStub equalStub (Except.ok [9])
        (fun _ => (Except.error "mocked error" : Except String (List Nat)))
        (fun d => Except.ok d)).file = none) ∧
    ((EnsureForSingleResource sha256hexStub "wd" "ca-bundle.pem" none
        resourceStub equalStub (Except.ok [9])
        (fun _ => (Except.error "mocked error" : Except String (List Nat)))
        (fun d => Except.ok d)).result = none →
      ∃ d, (EnsureForSingleResource sha256hexStub "wd" "ca-bundle.pem" none
          resourceStub equalStub (Except.ok [9])
          (fun _ => (Except.error "mocked error" : Except String (List Nat)))
          (fun d => Except.ok d)).file = some d ∧
        equalStub (sha256hexStub d) resourceStub.sha256 = true)) :=
  ⟨rfl,
    ensure_no_unverified_write (List Nat) sha256hexStub "wd" "ca-bundle.pem"
      none resourceStub equalStub (Except.ok [9])
      (fun _ => (Except.error "mocked error" : Except String (List Nat)))
      (fun d => Except.ok d) _ rfl⟩

/-- Claim C8 fails on the code as stated: the emitted progress message
is not of the form "<address>/<protocolTag>: <failure-or-success>" —
the code prepends "tor: access " (tor.go lines 168-171).  At a
concrete one-target run the single emitted message is
"tor: access 1.2.3.4/or_port: success", which differs from
"1.2.3.4/or_port: success". -/
theorem tor_progress_message_counterexample :
    (measureTargets
        (fun _ => ({ sentBytes := 0, receivedBytes := 0 }, none))
        [{ key := "k1"
           target :=
            { address := "1.2.3.4", protocol := "or_port", params := [] } }]
      ).progressEvents.map Prod.snd =
      ["tor: access 1.2.3.4/or_port: success"] ∧
    "tor: access 1.2.3.4/or_port: success" ≠ "1.2.3.4/or_port: success" := by
  constructor
  · decide
  · decide

/-- Claim C8 amended: the progress event emitted after the k-th target
completion out of N (k = i + 1, i zero-based, N > 0) carries as
fraction the IEEE-754 binary64 quotient float64(k) / float64(N) — the
correctly rounded double of k/N, equal to the rational k/N exactly
whenever that quotient is representable as a double, and in particular
the final emitted fraction is exactly 1.0 — and a message of the form
"tor: access <address>/<protocolTag>: <failure-or-success>", whose
last component is the probe's failure description or "success" on a
clean outcome. -/
theorem tor_progress_fraction_exact
    (order : List keytarget)
    (flexibleConnect : TorTarget → Results × Option String)
    (i : Nat) (hi : i < order.length)
    (hn : (order.length : Int) < 2 ^ 63) :
    (measureTargets flexibleConnect order).progressEvents[i]? =
      some (float64Div (float64OfInt ((i : Int) + 1))
          (float64OfInt (order.length : Int)),
        progressMessage flexibleConnect (order.get ⟨i, hi⟩)) ∧
    (i + 1 = order.length →
      float64Div (float64OfInt ((i : Int) + 1))
          (float64OfInt (order.length : Int)) = 1) := by
  have hpos : (0 : Int) < (order.length : Int) := by
    exact_mod_cast Nat.lt_of_le_of_lt (Nat.zero_le i) hi
  constructor
  · rw [measureTargets, processTargets_progress]
    simp only [newResultsCollector, List.nil_append]
    rw [progressEventsFrom_getElem flexibleConnect (order.length : Int) order
      0 i hi le_rfl (by simpa using hn)]
    rw [progressPercentage, if_pos hpos]
    norm_num
  · intro h
    have hk : ((i : Int) + 1) = (order.length : Int) := by exact_mod_cast h
    rw [hk]
    exact float64Div_self (ne_of_gt (float64OfInt_pos hpos))

/-- Witness for C8 at a concrete two-target run: the second (final)
event carries fraction float64(2)/float64(2) = 1 and the full message
of its target. -/
theorem tor_progress_fraction_exact_witness :
    1 < ([ktA, ktB] : List keytarget).length ∧
    ((([ktA, ktB] : List keytarget).length : Int)) < 2 ^ 63 ∧
    ((measureTargets probeStub [ktA, ktB]).progressEvents[1]? =
      some (float64Div (float64OfInt (((1 : Nat) : Int) + 1))
          (float64OfInt (([ktA, ktB] : List keytarget).length : Int)),
        progressMessage probeStub
          (([ktA, ktB] : List keytarget).get ⟨1, by decide⟩)) ∧
    (1 + 1 = ([ktA, ktB] : List keytarget).length →
      float64Div (float64OfInt (((1 : Nat) : Int) + 1))
          (float64OfInt (([ktA, ktB] : List keytarget).length : Int)) = 1)) :=
  ⟨by decide, by decide,
    tor_progress_fraction_exact [ktA, ktB] probeStub 1 (by decide) (by decide)⟩

/-- Claim C9 fails on the code as stated: the work queue is
`make(chan keytarget)` — an unbuffered channel, capacity 0, not
unbounded — so an enqueue blocks whenever no worker is ready to
receive (for instance while both workers are inside probes): with an
empty buffer and no waiting receiver, a send blocks. -/
theorem tor_enqueue_blocking_counterexample :
    sendWouldBlock workchCapacity 0 false = true ∧ workchCapacity = 0 := by
  constructor
  · decide
  · decide

/-- Claim C9 amended: the work queue is an unbuffered channel
(capacity 0), so enqueueing a (key, target) pair blocks the submitting
caller until one of the two workers receives it; the final barrier wait
returns only once every enqueued target has been processed, at which
point the completion counter equals the number of targets. -/
theorem tor_unbuffered_queue_barrier
    (order : List keytarget)
    (flexibleConnect : TorTarget → Results × Option String)
    (hn : (order.length : Int) < 2 ^ 63) :
    workchCapacity = 0 ∧
    (measureTargets flexibleConnect order).completed = order.length := by
  refine ⟨rfl, ?_⟩
  rw [measureTargets,
    processTargets_completed flexibleConnect (order.length : Int) order
      newResultsCollector (by norm_num [newResultsCollector])
      (by simpa [newResultsCollector] using hn)]
  simp [newResultsCollector]

/-- Witness for C9 (amended) at a concrete two-target run. -/
theorem tor_unbuffered_queue_barrier_witness :
    ((([ktA, ktB] : List keytarget).length : Int)) < 2 ^ 63 ∧
    (workchCapacity = 0 ∧
      (measureTargets probeStub [ktA, ktB]).completed =
        ([ktA, ktB] : List keytarget).length) :=
  ⟨by decide, tor_unbuffered_queue_barrier [ktA, ktB] probeStub (by decide)⟩

/-- Claim C10 (implicit): the progress-fraction computation is total —
when the total number of targets is zero, the guard `total > 0` makes
the emitted fraction 0 rather than a division by zero, for every
completion count; accordingly the event a step emits with total 0
carries fraction 0. -/
theorem tor_progress_guard_zero_total
    (flexibleConnect : TorTarget → Results × Option String)
    (rc : resultsCollector) (kt : keytarget) (sofar : Int) :
    progressPercentage sofar 0 = 0 ∧
    ((measureSingleTarget flexibleConnect rc kt 0).progressEvents.getLast?).map
      Prod.fst = some 0 := by
  constructor
  · simp [progressPercentage]
  · simp [measureSingleTarget, List.getLast?_concat, progressPercentage]

end ProbeEngine
